import Mathlib

/-!
Shallow embedding of the trivia backend (`src/backend/flaskr/__init__.py`).

The persistent store is modelled as a `State` holding the list of question
rows and category rows; each route handler is a pure function of the state,
the decoded request body / query parameters, and (for the quiz endpoint)
the value drawn by the random number generator.  Handlers that mutate the
store return the new state next to the response; `Except Nat` carries the
HTTP error code produced by `abort`.
-/

namespace Trivia

/-- Row of the `questions` table (`models.py`): id is the generated primary
key; the remaining columns are nullable, since the handlers can insert
`None` values for them. -/
structure Question where
  id : Int
  question : Option String
  answer : Option String
  category : Option Int
  difficulty : Option Int
deriving DecidableEq

/-- Row of the `categories` table. -/
structure Category where
  id : Int
  type : String
deriving DecidableEq

/-- Externally visible representation of a question. -/
structure FormattedQuestion where
  id : Int
  question : Option String
  answer : Option String
  category : Option Int
  difficulty : Option Int
deriving DecidableEq

/-- Modelled from the spec: `models.py` (holding `Question.format`) is not
under `src/`; the spec's glossary defines the formatted record as "the
externally-visible field-subset representation of a stored entity returned
in API responses", here all five columns. -/
def Question.format (q : Question) : FormattedQuestion :=
  ⟨q.id, q.question, q.answer, q.category, q.difficulty⟩

/-- Snapshot of the relational store. -/
structure State where
  questions : List Question
  categories : List Category
deriving DecidableEq

/-- The constant `QUESTIONS_PER_PAGE = 10`. -/
def QUESTIONS_PER_PAGE : Int := 10

/-- Resolution of one (possibly negative) Python slice endpoint against a
list of length `len`: negative indices count from the end and clamp at 0,
nonnegative ones clamp at `len`. -/
def resolveIndex (len : Nat) (i : Int) : Nat :=
  if i < 0 then ((len : Int) + i).toNat else min len i.toNat

/-- Python list slicing `xs[a:b]` (step 1). -/
def pySlice {α : Type} (xs : List α) (a b : Int) : List α :=
  (xs.drop (resolveIndex xs.length a)).take (resolveIndex xs.length b - resolveIndex xs.length a)

/-- The helper `paginate_questions(request, selection)`: `page` is the value
of the `page` query parameter (Flask supplies the default 1 when it is
absent or unparsable); the selection is formatted and then sliced with
Python semantics as `questions[start:end]`. -/
def paginate_questions (page : Int) (selection : List Question) : List FormattedQuestion :=
  let start := (page - 1) * QUESTIONS_PER_PAGE
  let questions := selection.map Question.format
  pySlice questions start (start + QUESTIONS_PER_PAGE)

/-- Python `dict` assignment `d[k] = v`: replaces the value at an existing
key, otherwise appends the binding. -/
def dictInsert (d : List (Int × String)) (k : Int) (v : String) : List (Int × String) :=
  if d.any (fun kv => kv.1 == k) then d.map (fun kv => if kv.1 == k then (k, v) else kv)
  else d ++ [(k, v)]

/-- The helper `read_categories()`: folds all category rows into an
id-to-label dictionary. -/
def read_categories (cats : List Category) : List (Int × String) :=
  cats.foldl (fun d c => dictInsert d c.id c.type) []

/-- Embedding of `Question.query.order_by(Question.id).all()`: the stored
rows sorted by id ascending (a stable sort, as the row order on equal keys
is irrelevant to every claim). -/
def sortById (qs : List Question) : List Question :=
  List.insertionSort (fun a b => a.id ≤ b.id) qs

/-- Response of `GET /questions`. -/
structure QuestionsResp where
  success : Bool
  questions : List FormattedQuestion
  currentCategory : List (Option Int)
  categories : List (Int × String)
  total_questions : Nat
deriving DecidableEq

/-- Handler `get_questions` (`GET /questions`). -/
def get_questions (s : State) (page : Int) : Except Nat QuestionsResp :=
  let selection := sortById s.questions
  let current_questions := paginate_questions page selection
  let categories := read_categories s.categories
  if current_questions.length = 0 then .error 404
  else .ok
    { success := true
      questions := current_questions
      currentCategory := selection.map (fun q => q.category)
      categories := categories
      total_questions := s.questions.length }

/-- Response of `DELETE /questions/{id}`. -/
structure DeleteResp where
  success : Bool
  deleted : Int
  questions : List FormattedQuestion
  total_questions : Nat
deriving DecidableEq

/-- Handler `delete_question` (`DELETE /questions/{id}`).  `one_or_none`
yields the unique row with the requested id, `None` when there is none, and
raises (surfacing as a 500) when several rows share the id; `delete` is
modelled from the spec (`models.py` is not under `src/`) as removal of that
row from the store. -/
def delete_question (s : State) (question_id : Int) (page : Int) :
    Except Nat DeleteResp × State :=
  match s.questions.filter (fun q => q.id == question_id) with
  | [] => (.error 404, s)
  | [_] =>
    let s' : State := { s with questions := s.questions.filter (fun q => !(q.id == question_id)) }
    (.ok
      { success := true
        deleted := question_id
        questions := paginate_questions page (sortById s'.questions)
        total_questions := s'.questions.length }, s')
  | _ => (.error 500, s)

/-- Decoded JSON body of `POST /questions`; a `none` field stands for an
absent key as well as an explicit `null` (both make `dict.get` return
`None`). -/
structure PostBody where
  question : Option String
  answer : Option String
  category : Option Int
  difficulty : Option Int
deriving DecidableEq

/-- Response of `POST /questions`. -/
structure PostResp where
  success : Bool
  created : Int
  questions : List FormattedQuestion
  total_questions : Nat
deriving DecidableEq

/-- Modelled from the spec: `models.py` (`Question.insert` and the id
generation of the store) is not under `src/`; the spec's data model says
ids are unique and generated, so the fresh id is one more than the largest
id in use. -/
def freshId (qs : List Question) : Int :=
  (qs.map (fun q => q.id)).foldr max 0 + 1

/-- Handler `post_question` (`POST /questions`): aborts with 422 when the
question or answer field equals the empty string (`None == ''` is false in
Python, so absent fields pass), otherwise inserts the new row and answers
with its id and the paginated id-ordered listing. -/
def post_question (s : State) (body : PostBody) (page : Int) :
    Except Nat PostResp × State :=
  if body.question == some "" || body.answer == some "" then (.error 422, s)
  else
    let q : Question :=
      { id := freshId s.questions
        question := body.question
        answer := body.answer
        category := body.category
        difficulty := body.difficulty }
    let s' : State := { s with questions := s.questions ++ [q] }
    (.ok
      { success := true
        created := q.id
        questions := paginate_questions page (sortById s'.questions)
        total_questions := s'.questions.length }, s')

/-- SQL `LIKE` pattern matching over characters: `%` matches any sequence
(tried as every suffix of the text), `_` matches any single character,
anything else matches itself. -/
def likeMatch : List Char → List Char → Bool
  | [], cs => cs.isEmpty
  | p :: ps, cs =>
    if p = '%' then cs.tails.any (fun t => likeMatch ps t)
    else
      match cs with
      | [] => false
      | c :: cs' => (if p = '_' then true else p == c) && likeMatch ps cs'

/-- Lower-casing of a character sequence, the case folding applied by
`ILIKE` to both operands. -/
def lowerChars (cs : List Char) : List Char :=
  cs.map Char.toLower

/-- SQLAlchemy `column.ilike(pattern)`: case-insensitive `LIKE`. -/
def ilike (pattern text : String) : Bool :=
  likeMatch (lowerChars pattern.toList) (lowerChars text.toList)

/-- Predicate selected by `Question.question.ilike('%' + search_term + '%')`;
a row whose question column is SQL `NULL` never matches. -/
def questionMatches (term : String) (q : Question) : Bool :=
  match q.question with
  | none => false
  | some text => ilike ("%" ++ term ++ "%") text

/-- Decoded JSON body of `POST /search`. -/
structure SearchBody where
  searchTerm : Option String
deriving DecidableEq

/-- Response of `POST /search`. -/
structure SearchResp where
  success : Bool
  questions : List FormattedQuestion
  currentCategory : List (Option Int)
  total_questions : Nat
deriving DecidableEq

/-- Handler `search_question` (`POST /search`). -/
def search_question (s : State) (body : SearchBody) (page : Int) :
    Except Nat SearchResp :=
  match body.searchTerm with
  | none => .error 422
  | some term =>
    if term = "" then .error 422
    else
      let selection := s.questions.filter (questionMatches term)
      .ok
        { success := true
          questions := paginate_questions page selection
          currentCategory := selection.map (fun q => q.category)
          total_questions := selection.length }

/-- Response of `GET /categories/{id}/questions`. -/
structure CategoryResp where
  success : Bool
  questions : List FormattedQuestion
  currentCategory : Int
  total_questions : Nat
deriving DecidableEq

/-- Handler `get_by_category` (`GET /categories/{id}/questions`): aborts
with 422 when the id appears in no stored question's category column (the
`categories` table is never consulted), otherwise pages the rows of that
category. -/
def get_by_category (s : State) (category_id : Int) (page : Int) :
    Except Nat CategoryResp :=
  let category_ids := s.questions.map (fun q => q.category)
  if category_ids.contains (some category_id) then
    let selection := s.questions.filter (fun q => q.category == some category_id)
    .ok
      { success := true
        questions := paginate_questions page selection
        currentCategory := category_id
        total_questions := selection.length }
  else .error 422

/-- The `quiz_category` JSON object; its `id` key may be absent. -/
structure QuizCategory where
  id : Option Int
deriving DecidableEq

/-- Decoded JSON body of `POST /quizzes`. -/
structure QuizBody where
  previous_questions : Option (List Int)
  quiz_category : Option QuizCategory
deriving DecidableEq

/-- Response of `POST /quizzes`. -/
structure QuizResp where
  success : Bool
  question : Option FormattedQuestion
deriving DecidableEq

/-- Candidate rows of the quiz handler: every question whose id is not in
`previous`, restricted to the category when `catId` is nonzero. -/
def quizCandidates (qs : List Question) (previous : List Int) (catId : Int) : List Question :=
  if catId == 0 then qs.filter (fun q => !(previous.contains q.id))
  else qs.filter (fun q => q.category == some catId && !(previous.contains q.id))

/-- Handler `quiz` (`POST /quizzes`): aborts with 422 when either body key
is missing, defaults a missing category id to 0, and returns the candidate
at the index drawn by `random.randrange(0, len(selection))` — modelled by
`r % selection.length` for an arbitrary draw `r` — or a `null` question
when no candidate is left. -/
def quiz (s : State) (body : QuizBody) (r : Nat) : Except Nat QuizResp :=
  match body.previous_questions, body.quiz_category with
  | some previous, some qc =>
    let quiz_category_id := qc.id.getD 0
    let selection := quizCandidates s.questions previous quiz_category_id
    if selection.length > 0 then
      .ok { success := true
            question := (selection[r % selection.length]?).map Question.format }
    else
      .ok { success := true, question := none }
  | _, _ => .error 422

/-- Case-insensitive substring containment, following the spec's words
("case-insensitive containment match against the question text"); written
for comparison with the `ilike`-based matcher the code uses. -/
def containsCISpec (term text : String) : Prop :=
  lowerChars term.toList <:+: lowerChars text.toList

instance (term text : String) : Decidable (containsCISpec term text) := by
  unfold containsCISpec
  infer_instance

/-- The row inserted by `post_question` for a given store and request body. -/
def newQuestion (s : State) (body : PostBody) : Question :=
  { id := freshId s.questions
    question := body.question
    answer := body.answer
    category := body.category
    difficulty := body.difficulty }

/-- Sample row used for concrete instantiations. -/
def sampleQuestion (i : Nat) : Question :=
  { id := (i : Int), question := none, answer := none, category := some 1, difficulty := some 1 }

/-- Store of `n` sample rows with ids `0, …, n-1`. -/
def sampleQuestions (n : Nat) : List Question :=
  (List.range n).map sampleQuestion

/-- Row whose question text is "abc". -/
def rowAbc : Question :=
  { id := 1, question := some "abc", answer := some "x", category := some 1, difficulty := some 1 }

/-- Store holding only `rowAbc`. -/
def stateAbc : State :=
  { questions := [rowAbc], categories := [] }

/-- Row with id 5, used for the quiz instantiation. -/
def rowFive : Question :=
  { id := 5, question := some "q5", answer := some "a5", category := some 2, difficulty := some 1 }

/-- Store holding only `rowFive`, next to one category row. -/
def stateFive : State :=
  { questions := [rowFive], categories := [⟨2, "Art"⟩] }

/-! ## Helper lemmas -/

theorem resolveIndex_nonneg (len : Nat) (i : Int) (h : 0 ≤ i) :
    resolveIndex len i = min len i.toNat := by
  unfold resolveIndex
  rw [if_neg (by omega)]

theorem take_sub_min {α : Type} (xs : List α) (s e : Nat) :
    (xs.drop (min xs.length s)).take (min xs.length e - min xs.length s)
      = (xs.drop s).take (e - s) := by
  by_cases hs : s ≤ xs.length
  · rw [min_eq_right hs]
    by_cases he : e ≤ xs.length
    · rw [min_eq_right he]
    · rw [min_eq_left (le_of_not_le he)]
      have h1 : (xs.drop s).length = xs.length - s := List.length_drop s xs
      rw [List.take_of_length_le (by omega), List.take_of_length_le (by omega)]
  · have h := le_of_not_le hs
    rw [min_eq_left h, List.drop_eq_nil_of_le (le_refl xs.length),
      List.drop_eq_nil_of_le h]
    simp

theorem paginate_page_pos (selection : List Question) (p : Int) (hp : 1 ≤ p) :
    paginate_questions p selection
      = ((selection.map Question.format).drop ((p - 1) * 10).toNat).take 10 := by
  have h0 : (0 : Int) ≤ (p - 1) * 10 := mul_nonneg (by omega) (by norm_num)
  have h10 : ((p - 1) * 10 + 10).toNat = ((p - 1) * 10).toNat + 10 := by omega
  simp only [paginate_questions, pySlice, QUESTIONS_PER_PAGE]
  rw [resolveIndex_nonneg _ _ h0, resolveIndex_nonneg _ _ (by omega), h10]
  have h := take_sub_min (selection.map Question.format) ((p - 1) * 10).toNat
    (((p - 1) * 10).toNat + 10)
  rwa [Nat.add_sub_cancel_left] at h

theorem paginate_length_page_pos (selection : List Question) (p : Int) (hp : 1 ≤ p) :
    ((paginate_questions p selection).length : Int)
      = min 10 (max 0 ((selection.length : Int) - 10 * (p - 1))) := by
  rw [paginate_page_pos selection p hp, List.length_take, List.length_drop,
    List.length_map]
  have hs : ((((p - 1) * 10).toNat : Nat) : Int) = (p - 1) * 10 :=
    Int.toNat_of_nonneg (mul_nonneg (by omega) (by norm_num))
  push_cast
  omega

/-! ## C1 — paginate_questions -/

/-- C1 counterexample: at page `-1` over a store of 15 questions the result
is not empty (Python's negative-slice semantics yield the first five
records), and its length disagrees with `min(10, max(0, N - 10*(p-1)))`,
contradicting the claim that every page `p ≤ 0` yields the empty list. -/
theorem paginate_questions_neg_page_cex :
    paginate_questions (-1) (sampleQuestions 15) ≠ []
    ∧ (paginate_questions (-1) (sampleQuestions 15)).length = 5
    ∧ ¬ (((paginate_questions (-1) (sampleQuestions 15)).length : Int)
          = min 10 (max 0 ((15 : Int) - 10 * (-1 - 1)))) := by
  decide

/-- C1 (amended): for every page `p ≥ 1`, `paginate_questions` returns the
sub-sequence `[(p-1)*10 : p*10]` of the formatted list, its length is
`min(10, max(0, N - 10*(p-1)))`, and a page far beyond the data yields the
empty list with no error; pages `p ≤ 0` instead follow Python's
negative-index slice semantics and can be non-empty. -/
theorem paginate_questions_spec (selection : List Question) (p : Int) (hp : 1 ≤ p) :
    paginate_questions p selection
      = ((selection.map Question.format).drop ((p - 1) * 10).toNat).take 10
    ∧ ((paginate_questions p selection).length : Int)
      = min 10 (max 0 ((selection.length : Int) - 10 * (p - 1)))
    ∧ ((selection.length : Int) ≤ 10 * (p - 1) → paginate_questions p selection = []) := by
  refine ⟨paginate_page_pos selection p hp, paginate_length_page_pos selection p hp, ?_⟩
  intro h
  have h2 := paginate_length_page_pos selection p hp
  have h3 : ((paginate_questions p selection).length : Int) = 0 := by omega
  exact List.length_eq_zero.mp (by exact_mod_cast h3)

/-- Instantiation of `paginate_questions_spec` at page 2 of 15 records. -/
theorem paginate_questions_spec_witness :
    paginate_questions 2 (sampleQuestions 15)
      = (((sampleQuestions 15).map Question.format).drop (((2 : Int) - 1) * 10).toNat).take 10
    ∧ (paginate_questions 2 (sampleQuestions 15)).length = 5 := by
  refine ⟨(paginate_questions_spec (sampleQuestions 15) 2 (by norm_num)).1, ?_⟩
  decide

/-! ## C7 — GET /questions -/

/-- C7: `GET /questions` answers 404 exactly when the requested page of the
id-ordered store is empty; otherwise the payload carries that page, the
total question count, the category ids of all questions, and the
id-to-label category map. -/
theorem get_questions_spec (s : State) (page : Int) :
    (get_questions s page = .error 404
      ↔ paginate_questions page (sortById s.questions) = [])
    ∧ (paginate_questions page (sortById s.questions) ≠ [] →
        get_questions s page = .ok
          { success := true
            questions := paginate_questions page (sortById s.questions)
            currentCategory := (sortById s.questions).map (fun q => q.category)
            categories := read_categories s.categories
            total_questions := s.questions.length }) := by
  simp only [get_questions]
  by_cases h : (paginate_questions page (sortById s.questions)).length = 0
  · have he : paginate_questions page (sortById s.questions) = [] :=
      List.length_eq_zero.mp h
    rw [if_pos h]
    exact ⟨by simp [he], fun hne => absurd he hne⟩
  · have hne : paginate_questions page (sortById s.questions) ≠ [] := by
      intro he
      exact h (by rw [he]; rfl)
    rw [if_neg h]
    exact ⟨by simp [hne], fun _ => rfl⟩

/-- Instantiation of `get_questions_spec` on a one-question store. -/
theorem get_questions_spec_witness :
    get_questions stateFive 1 = .ok
      { success := true
        questions := paginate_questions 1 (sortById stateFive.questions)
        currentCategory := (sortById stateFive.questions).map (fun q => q.category)
        categories := read_categories stateFive.categories
        total_questions := stateFive.questions.length } :=
  (get_questions_spec stateFive 1).2 (by decide)

/-! ## C3 — GET /categories/{id}/questions -/

/-- C3: the category filter answers 422 exactly when no stored question has
the requested category value — the `categories` table is never consulted,
so the presence of the category row is irrelevant; otherwise the payload
pages exactly the questions whose category matches, with `total_questions`
counting all of them. -/
theorem get_by_category_spec (s : State) (category_id : Int) (page : Int) :
    (get_by_category s category_id page = .error 422
      ↔ ¬ ∃ q ∈ s.questions, q.category = some category_id)
    ∧ ((∃ q ∈ s.questions, q.category = some category_id) →
        get_by_category s category_id page = .ok
          { success := true
            questions := paginate_questions page
              (s.questions.filter (fun q => q.category == some category_id))
            currentCategory := category_id
            total_questions :=
              (s.questions.filter (fun q => q.category == some category_id)).length })
    ∧ (∀ q : Question,
        q ∈ s.questions.filter (fun q => q.category == some category_id)
          ↔ q ∈ s.questions ∧ q.category = some category_id) := by
  refine ⟨?_, ?_, ?_⟩
  · simp only [get_by_category]
    by_cases h : (s.questions.map (fun q => q.category)).contains (some category_id)
    · rw [if_pos h]
      simp only [List.contains_iff_exists_mem_beq, List.mem_map] at h
      constructor
      · intro hc
        cases hc
      · intro hc
        exfalso
        apply hc
        obtain ⟨x, ⟨q, hq, hxq⟩, hbeq⟩ := h
        exact ⟨q, hq, by rw [hxq]; exact (beq_iff_eq.mp hbeq).symm⟩
    · rw [if_neg h]
      simp only [List.contains_iff_exists_mem_beq, List.mem_map] at h
      constructor
      · intro _ hc
        obtain ⟨q, hq, hcat⟩ := hc
        exact h ⟨some category_id, ⟨q, hq, hcat⟩, by simp⟩
      · intro _
        rfl
  · intro hex
    simp only [get_by_category]
    rw [if_pos ?_]
    obtain ⟨q, hq, hcat⟩ := hex
    exact List.contains_iff_exists_mem_beq.mpr
      ⟨some category_id, List.mem_map.mpr ⟨q, hq, hcat⟩, by simp⟩
  · intro q
    simp [List.mem_filter]

/-- Instantiation of `get_by_category_spec` at category 2 of a one-question
store. -/
theorem get_by_category_spec_witness :
    get_by_category stateFive 2 1 = .ok
      { success := true
        questions := paginate_questions 1
          (stateFive.questions.filter (fun q => q.category == some 2))
        currentCategory := 2
        total_questions :=
          (stateFive.questions.filter (fun q => q.category == some 2)).length } :=
  (get_by_category_spec stateFive 2 1).2.1 ⟨rowFive, by decide, by decide⟩

/-! ## C6 — DELETE /questions/{id} -/

theorem filter_id_length_le_one (qs : List Question) (qid : Int)
    (h : (qs.map (fun q => q.id)).Nodup) :
    (qs.filter (fun q => q.id == qid)).length ≤ 1 := by
  induction qs with
  | nil => simp
  | cons q qs ih =>
    rw [List.map_cons, List.nodup_cons] at h
    by_cases hq : q.id == qid
    · rw [List.filter_cons, if_pos hq]
      have hnone : qs.filter (fun q => q.id == qid) = [] := by
        rw [List.filter_eq_nil_iff]
        intro a ha hbeq
        exact h.1 (List.mem_map.mpr ⟨a, ha, by
          rw [beq_iff_eq.mp hbeq, beq_iff_eq.mp hq]⟩)
      rw [hnone]
      simp
    · rw [List.filter_cons, if_neg hq]
      exact ih h.2

/-- C6: deletion answers 404 exactly when no stored question carries the
requested id, leaving the store unchanged; when such a question exists
(ids are unique, being the primary key), exactly one record is removed,
the deleted id is echoed, and no question with that id remains. -/
theorem delete_question_spec (s : State) (question_id : Int) (page : Int)
    (hnodup : (s.questions.map (fun q => q.id)).Nodup) :
    ((delete_question s question_id page).1 = .error 404
      ↔ ¬ ∃ q ∈ s.questions, q.id = question_id)
    ∧ ((delete_question s question_id page).1 = .error 404
        → (delete_question s question_id page).2 = s)
    ∧ ((∃ q ∈ s.questions, q.id = question_id) →
        ∃ s' : State, delete_question s question_id page =
          (.ok { success := true
                 deleted := question_id
                 questions := paginate_questions page (sortById s'.questions)
                 total_questions := s'.questions.length }, s')
          ∧ s'.questions.length + 1 = s.questions.length
          ∧ (∀ q ∈ s'.questions, q ∈ s.questions)
          ∧ ¬ ∃ q ∈ s'.questions, q.id = question_id) := by
  by_cases hex : ∃ q ∈ s.questions, q.id = question_id
  · obtain ⟨q, hq, hid⟩ := hex
    have hmem : q ∈ s.questions.filter (fun q => q.id == question_id) :=
      List.mem_filter.mpr ⟨hq, beq_iff_eq.mpr hid⟩
    have hlen : (s.questions.filter (fun q => q.id == question_id)).length = 1 := by
      have h1 := filter_id_length_le_one s.questions question_id hnodup
      have h2 : 0 < (s.questions.filter (fun q => q.id == question_id)).length :=
        List.length_pos.mpr (by intro hnil; rw [hnil] at hmem; cases hmem)
      omega
    obtain ⟨x, hx⟩ := List.length_eq_one.mp hlen
    have hstep : delete_question s question_id page =
        (.ok { success := true
               deleted := question_id
               questions := paginate_questions page (sortById
                 (s.questions.filter (fun q => !(q.id == question_id))))
               total_questions :=
                 (s.questions.filter (fun q => !(q.id == question_id))).length },
         { s with questions := s.questions.filter (fun q => !(q.id == question_id)) }) := by
      simp only [delete_question, hx]
    have hcount : (s.questions.filter (fun q => !(q.id == question_id))).length + 1
        = s.questions.length := by
      have hsplit := List.length_eq_countP_add_countP (fun q => q.id == question_id)
        (l := s.questions)
      rw [List.countP_eq_length_filter, List.countP_eq_length_filter, hlen] at hsplit
      have hsame : s.questions.filter (fun a => decide ¬(a.id == question_id) = true)
          = s.questions.filter (fun q => !(q.id == question_id)) := by
        apply List.filter_congr
        intro a _
        cases a.id == question_id <;> simp
      rw [hsame] at hsplit
      omega
    refine ⟨?_, ?_, ?_⟩
    · rw [hstep]
      simp only [Except.error.injEq]
      constructor
      · intro hc
        cases hc
      · intro hc
        exact absurd ⟨q, hq, hid⟩ hc
    · rw [hstep]
      intro hc
      cases hc
    · intro _
      refine ⟨{ s with questions := s.questions.filter (fun q => !(q.id == question_id)) },
        hstep, hcount, ?_, ?_⟩
      · intro a ha
        exact (List.mem_filter.mp ha).1
      · intro ⟨a, ha, haid⟩
        have := (List.mem_filter.mp ha).2
        rw [haid] at this
        simp at this
  · have hnil : s.questions.filter (fun q => q.id == question_id) = [] := by
      rw [List.filter_eq_nil_iff]
      intro a ha hbeq
      exact hex ⟨a, ha, beq_iff_eq.mp hbeq⟩
    have hstep : delete_question s question_id page = (.error 404, s) := by
      simp only [delete_question, hnil]
    refine ⟨?_, ?_, fun hc => absurd hc hex⟩
    · rw [hstep]
      simp [hex]
    · rw [hstep]
      intro _
      rfl

/-- Instantiation of `delete_question_spec` deleting id 5 from a
one-question store. -/
theorem delete_question_spec_witness :
    ∃ s' : State, delete_question stateFive 5 1 =
      (.ok { success := true
             deleted := 5
             questions := paginate_questions 1 (sortById s'.questions)
             total_questions := s'.questions.length }, s')
      ∧ s'.questions.length + 1 = stateFive.questions.length
      ∧ (∀ q ∈ s'.questions, q ∈ stateFive.questions)
      ∧ ¬ ∃ q ∈ s'.questions, q.id = 5 :=
  (delete_question_spec stateFive 5 1 (by decide)).2.2 ⟨rowFive, by decide, by decide⟩

/-! ## C5 — POST /questions -/

theorem le_foldr_max (l : List Int) (a : Int) (h : a ∈ l) : a ≤ l.foldr max 0 := by
  induction l with
  | nil => cases h
  | cons x xs ih =>
    rcases List.mem_cons.mp h with h | h
    · rw [h, List.foldr_cons]
      exact le_max_left x (xs.foldr max 0)
    · exact le_trans (ih h) (le_max_right x (xs.foldr max 0))

theorem lt_freshId (qs : List Question) (q : Question) (h : q ∈ qs) :
    q.id < freshId qs := by
  have := le_foldr_max (qs.map (fun q => q.id)) q.id (List.mem_map.mpr ⟨q, h, rfl⟩)
  unfold freshId
  omega

theorem countP_freshId_insert (s : State) (body : PostBody) :
    (sortById (s.questions ++ [newQuestion s body])).countP
      (fun q => q.id == freshId s.questions) = 1 := by
  have hperm := List.perm_insertionSort (fun a b : Question => a.id ≤ b.id)
    (s.questions ++ [newQuestion s body])
  rw [sortById, hperm.countP_eq, List.countP_append]
  have h0 : s.questions.countP (fun q => q.id == freshId s.questions) = 0 := by
    rw [List.countP_eq_zero]
    intro a ha hbeq
    have := lt_freshId s.questions a ha
    rw [beq_iff_eq.mp hbeq] at this
    omega
  have h1 : List.countP (fun q => q.id == freshId s.questions) [newQuestion s body] = 1 := by
    simp [newQuestion]
  rw [h0, h1]

/-- C5: posting a question whose question or answer field is the empty
string aborts with 422 before any insert, leaving the store unchanged;
otherwise the record built from the four body fields is appended with a
freshly generated id, the response echoes that id, and the new row appears
exactly once in the id-ordered listing. -/
theorem post_question_spec (s : State) (body : PostBody) (page : Int) :
    ((body.question = some "" ∨ body.answer = some "") →
      post_question s body page = (.error 422, s))
    ∧ (body.question ≠ some "" → body.answer ≠ some "" →
      post_question s body page =
        (.ok { success := true
               created := freshId s.questions
               questions := paginate_questions page
                 (sortById (s.questions ++ [newQuestion s body]))
               total_questions := s.questions.length + 1 },
         { s with questions := s.questions ++ [newQuestion s body] })
      ∧ (sortById (s.questions ++ [newQuestion s body])).countP
          (fun q => q.id == freshId s.questions) = 1) := by
  constructor
  · intro h
    have hcond : (body.question == some "" || body.answer == some "") = true := by
      rcases h with h | h
      · rw [h]
        simp
      · rw [h]
        simp
    simp only [post_question, hcond]
    rfl
  · intro hq ha
    have hcond : (body.question == some "" || body.answer == some "") = false := by
      have h1 : (body.question == some "") = false := beq_eq_false_iff_ne.mpr hq
      have h2 : (body.answer == some "") = false := beq_eq_false_iff_ne.mpr ha
      rw [h1, h2]
      rfl
    refine ⟨?_, countP_freshId_insert s body⟩
    simp only [post_question, hcond, Bool.false_eq_true, if_false]
    rw [List.length_append]
    rfl

/-- Instantiation of `post_question_spec` inserting into a one-question
store. -/
theorem post_question_spec_witness :
    post_question stateFive ⟨some "Q", some "A", some 1, some 2⟩ 1 =
      (.ok { success := true
             created := freshId stateFive.questions
             questions := paginate_questions 1
               (sortById (stateFive.questions
                 ++ [newQuestion stateFive ⟨some "Q", some "A", some 1, some 2⟩]))
             total_questions := stateFive.questions.length + 1 },
       { stateFive with questions := stateFive.questions
           ++ [newQuestion stateFive ⟨some "Q", some "A", some 1, some 2⟩] })
    ∧ (sortById (stateFive.questions
        ++ [newQuestion stateFive ⟨some "Q", some "A", some 1, some 2⟩])).countP
        (fun q => q.id == freshId stateFive.questions) = 1 :=
  (post_question_spec stateFive ⟨some "Q", some "A", some 1, some 2⟩ 1).2
    (by decide) (by decide)

/-! ## C9 — POST /questions with absent fields -/

/-- C9: the 422 validation compares against the literal empty string only,
so a body with absent (`null`) question and answer passes the check and a
row with `NULL` question and answer text is inserted. -/
theorem post_question_null_fields (s : State) (body : PostBody) (page : Int)
    (hq : body.question = none) (ha : body.answer = none) :
    (post_question s body page).2.questions
      = s.questions ++ [{ id := freshId s.questions
                          question := none
                          answer := none
                          category := body.category
                          difficulty := body.difficulty }]
    ∧ ∃ resp : PostResp, (post_question s body page).1 = .ok resp := by
  have hcond : (body.question == some "" || body.answer == some "") = false := by
    rw [hq, ha]
    rfl
  simp only [post_question, hcond, Bool.false_eq_true, if_false]
  refine ⟨by simp [newQuestion, hq, ha], ⟨_, rfl⟩⟩

/-- Instantiation of `post_question_null_fields` on a body holding only a
category and difficulty. -/
theorem post_question_null_fields_witness :
    (post_question stateFive ⟨none, none, some 3, some 4⟩ 1).2.questions
      = stateFive.questions ++ [{ id := freshId stateFive.questions
                                  question := none
                                  answer := none
                                  category := some 3
                                  difficulty := some 4 }]
    ∧ ∃ resp : PostResp, (post_question stateFive ⟨none, none, some 3, some 4⟩ 1).1
        = .ok resp :=
  post_question_null_fields stateFive ⟨none, none, some 3, some 4⟩ 1 rfl rfl

/-! ## C2 — POST /quizzes selection -/

theorem mem_quizCandidates (qs : List Question) (previous : List Int) (catId : Int)
    (q : Question) :
    q ∈ quizCandidates qs previous catId
      ↔ q ∈ qs ∧ (catId ≠ 0 → q.category = some catId) ∧ q.id ∉ previous := by
  unfold quizCandidates
  by_cases h : catId = 0
  · subst h
    simp [List.mem_filter]
  · have hb : (catId == 0) = false := beq_eq_false_iff_ne.mpr h
    rw [hb]
    simp only [Bool.false_eq_true, if_false, List.mem_filter, Bool.and_eq_true,
      beq_iff_eq]
    constructor
    · rintro ⟨hmem, hcat, hprev⟩
      refine ⟨hmem, fun _ => hcat, ?_⟩
      simpa using hprev
    · rintro ⟨hmem, hcat, hprev⟩
      refine ⟨hmem, hcat h, ?_⟩
      simpa using hprev

/-- C2: the quiz candidate set holds exactly the stored questions outside
`previous_questions`, restricted to the category when its id is nonzero;
a non-empty candidate set yields the candidate at the drawn index (every
index is reachable, one per draw value), an empty one yields a successful
response with a null question, and a single candidate is returned
deterministically. -/
theorem quiz_selector_spec (s : State) (previous : List Int) (qc : QuizCategory)
    (r : Nat) :
    (∀ q : Question, q ∈ quizCandidates s.questions previous (qc.id.getD 0)
      ↔ q ∈ s.questions ∧ (qc.id.getD 0 ≠ 0 → q.category = some (qc.id.getD 0))
        ∧ q.id ∉ previous)
    ∧ (quizCandidates s.questions previous (qc.id.getD 0) = [] →
        quiz s ⟨some previous, some qc⟩ r = .ok { success := true, question := none })
    ∧ (quizCandidates s.questions previous (qc.id.getD 0) ≠ [] →
        ∃ q ∈ quizCandidates s.questions previous (qc.id.getD 0),
          quiz s ⟨some previous, some qc⟩ r
            = .ok { success := true, question := some q.format })
    ∧ (∀ h : r < (quizCandidates s.questions previous (qc.id.getD 0)).length,
        quiz s ⟨some previous, some qc⟩ r = .ok
          { success := true
            question := some
              ((quizCandidates s.questions previous (qc.id.getD 0)).get ⟨r, h⟩).format })
    ∧ (∀ q : Question, quizCandidates s.questions previous (qc.id.getD 0) = [q] →
        quiz s ⟨some previous, some qc⟩ r
          = .ok { success := true, question := some q.format }) := by
  refine ⟨mem_quizCandidates s.questions previous (qc.id.getD 0), ?_, ?_, ?_, ?_⟩
  · intro hnil
    simp only [quiz, hnil]
    rfl
  · intro hne
    have hlen : 0 < (quizCandidates s.questions previous (qc.id.getD 0)).length :=
      List.length_pos.mpr hne
    have hmod : r % (quizCandidates s.questions previous (qc.id.getD 0)).length
        < (quizCandidates s.questions previous (qc.id.getD 0)).length :=
      Nat.mod_lt r hlen
    refine ⟨(quizCandidates s.questions previous (qc.id.getD 0)).get ⟨_, hmod⟩,
      List.get_mem _ _ hmod, ?_⟩
    simp only [quiz, gt_iff_lt, hlen, if_true]
    rw [List.getElem?_eq_getElem hmod]
    rfl
  · intro h
    have hlen : 0 < (quizCandidates s.questions previous (qc.id.getD 0)).length := by
      omega
    have hmod : r % (quizCandidates s.questions previous (qc.id.getD 0)).length = r :=
      Nat.mod_eq_of_lt h
    simp only [quiz, gt_iff_lt, hlen, if_true, hmod]
    rw [List.getElem?_eq_getElem h]
    rfl
  · intro q hone
    simp [quiz, hone, Nat.mod_one]

/-- Instantiation of `quiz_selector_spec`: previous list empty and a single
candidate of id 5 in category 2, returned deterministically at draw 7. -/
theorem quiz_selector_spec_witness :
    quiz stateFive ⟨some [], some ⟨some 2⟩⟩ 7
      = .ok { success := true, question := some rowFive.format } :=
  (quiz_selector_spec stateFive [] ⟨some 2⟩ 7).2.2.2.2 rowFive (by decide)

/-! ## C8 — POST /quizzes parameter validation -/

/-- C8: the quiz endpoint answers 422 exactly when `previous_questions` or
`quiz_category` is missing from the body; a `quiz_category` object without
an `id` key is accepted and behaves as id 0, i.e. any category. -/
theorem quiz_missing_params_spec (s : State) (body : QuizBody) (r : Nat) :
    (quiz s body r = .error 422
      ↔ body.previous_questions = none ∨ body.quiz_category = none)
    ∧ (∀ previous : List Int,
        quiz s ⟨some previous, some ⟨none⟩⟩ r
          = quiz s ⟨some previous, some ⟨some 0⟩⟩ r) := by
  constructor
  · rcases body with ⟨prev, qc⟩
    cases prev with
    | none => simp [quiz]
    | some p =>
      cases qc with
      | none => simp [quiz]
      | some c =>
        simp only [quiz]
        constructor
        · intro h
          split at h <;> simp at h
        · intro h
          rcases h with h | h <;> simp at h
  · intro previous
    rfl

/-! ## C4 — POST /search: `ILIKE` versus substring containment -/

theorem likeMatch_nil_iff (cs : List Char) : likeMatch [] cs = true ↔ cs = [] := by
  cases cs <;> simp [likeMatch]

theorem likeMatch_percent_cons (ps cs : List Char) :
    likeMatch ('%' :: ps) cs = true ↔ ∃ t, t <:+ cs ∧ likeMatch ps t = true := by
  simp [likeMatch, List.any_eq_true, List.mem_tails]

theorem likeMatch_lit_percent (ps : List Char)
    (hps : ∀ c ∈ ps, c ≠ '%' ∧ c ≠ '_') (cs : List Char) :
    likeMatch (ps ++ ['%']) cs = true ↔ ∃ t, cs = ps ++ t := by
  induction ps generalizing cs with
  | nil =>
    simp only [List.nil_append]
    rw [likeMatch_percent_cons]
    constructor
    · intro _
      exact ⟨cs, rfl⟩
    · intro _
      exact ⟨[], ⟨cs, by simp⟩, by simp [likeMatch]⟩
  | cons p ps ih =>
    have hp := hps p (List.mem_cons_self p ps)
    have hps' : ∀ c ∈ ps, c ≠ '%' ∧ c ≠ '_' :=
      fun c hc => hps c (List.mem_cons_of_mem p hc)
    cases cs with
    | nil =>
      simp only [List.cons_append, likeMatch, hp.1, if_false]
      constructor
      · intro h
        cases h
      · rintro ⟨t, ht⟩
        cases ht
    | cons c cs' =>
      simp only [List.cons_append, likeMatch, hp.1, hp.2, if_false, List.append_eq]
      rw [Bool.and_eq_true, beq_iff_eq, ih hps']
      constructor
      · rintro ⟨rfl, t, rfl⟩
        exact ⟨t, rfl⟩
      · rintro ⟨t, ht⟩
        injection ht with h1 h2
        exact ⟨h1.symm, t, h2⟩

theorem likeMatch_infix (l m : List Char) (hl : ∀ c ∈ l, c ≠ '%' ∧ c ≠ '_') :
    likeMatch ('%' :: (l ++ ['%'])) m = true ↔ l <:+: m := by
  rw [likeMatch_percent_cons]
  constructor
  · rintro ⟨t, hsuf, hm⟩
    obtain ⟨u, rfl⟩ := (likeMatch_lit_percent l hl t).mp hm
    obtain ⟨pre, rfl⟩ := hsuf
    exact ⟨pre, u, by simp⟩
  · rintro ⟨s, t, rfl⟩
    exact ⟨l ++ t, ⟨s, by simp⟩, (likeMatch_lit_percent l hl _).mpr ⟨t, rfl⟩⟩

theorem ofNatAux_toNat (n : Nat) (h : n.isValidChar) :
    (Char.ofNatAux n h).toNat = n := by
  have hlt : n < 4294967296 := by
    rcases h with h | h
    · omega
    · omega
  simp [Char.ofNatAux, Char.toNat, UInt32.toNat, BitVec.toNat_ofNat,
    Nat.mod_eq_of_lt hlt]

theorem toLower_toNat (c : Char) :
    c.toLower = c ∨ (97 ≤ c.toLower.toNat ∧ c.toLower.toNat ≤ 122) := by
  by_cases hc : c.toNat ≥ 65 ∧ c.toNat ≤ 90
  · right
    have hv : (c.toNat + 32).isValidChar := Or.inl (by omega)
    have h1 : c.toLower = Char.ofNatAux (c.toNat + 32) hv := by
      simp only [Char.toLower, hc.1, hc.2, and_self, if_true]
      rw [Char.ofNat, dif_pos hv]
    rw [h1, ofNatAux_toNat]
    omega
  · left
    simp only [Char.toLower, if_neg hc]

theorem toLower_ne_wildcard (c : Char) (hp : c ≠ '%') (hu : c ≠ '_') :
    c.toLower ≠ '%' ∧ c.toLower ≠ '_' := by
  rcases toLower_toNat c with h1 | h1
  · rw [h1]
    exact ⟨hp, hu⟩
  · constructor <;> intro hc <;> rw [hc] at h1 <;> revert h1 <;> decide

theorem lowerChars_pattern (term : String) :
    lowerChars (("%" ++ term ++ "%").toList)
      = '%' :: (lowerChars term.toList ++ ['%']) := by
  have h : ("%" ++ term ++ "%").toList = '%' :: (term.toList ++ ['%']) := by
    show (("%" ++ term ++ "%").data) = '%' :: (term.data ++ ['%'])
    rw [String.data_append, String.data_append]
    rfl
  rw [h]
  simp only [lowerChars, List.map_cons, List.map_append]
  rfl

theorem questionMatches_iff (term : String)
    (hterm : ∀ c ∈ term.toList, c ≠ '%' ∧ c ≠ '_') (q : Question) :
    questionMatches term q = true
      ↔ ∃ text, q.question = some text ∧ containsCISpec term text := by
  cases hq : q.question with
  | none => simp [questionMatches, hq]
  | some text =>
    simp only [questionMatches, hq, ilike]
    rw [lowerChars_pattern, likeMatch_infix _ _ ?hwild]
    case hwild =>
      intro c hc
      obtain ⟨c0, hc0, rfl⟩ := List.mem_map.mp hc
      exact toLower_ne_wildcard c0 (hterm c0 hc0).1 (hterm c0 hc0).2
    constructor
    · intro h
      exact ⟨text, rfl, h⟩
    · rintro ⟨t, ht, hcont⟩
      injection ht with ht
      rw [ht]
      exact hcont

/-- C4 counterexample: with the single stored question text "abc" and the
search term `"_"`, the handler's `ILIKE` pattern `%_%` treats the
underscore as a single-character wildcard, so the response reports one
match although "abc" does not contain `"_"` as a substring. -/
theorem search_question_wildcard_cex :
    search_question stateAbc ⟨some "_"⟩ 1
      = .ok { success := true
              questions := [rowAbc.format]
              currentCategory := [some 1]
              total_questions := 1 }
    ∧ ¬ containsCISpec "_" "abc" := by
  constructor
  · rfl
  · decide

/-- C4 (amended): `POST /search` answers 422 exactly when `searchTerm` is
missing or empty; otherwise the matching set is the set of questions whose
text matches the SQL pattern `%term%` case-insensitively — which, for terms
free of the wildcard characters `%` and `_`, is exactly case-insensitive
substring containment — and `total_questions` counts all matches. -/
theorem search_question_spec (s : State) (body : SearchBody) (page : Int) :
    (search_question s body page = .error 422
      ↔ body.searchTerm = none ∨ body.searchTerm = some "")
    ∧ (∀ term : String, body.searchTerm = some term → term ≠ "" →
        search_question s body page = .ok
          { success := true
            questions := paginate_questions page
              (s.questions.filter (questionMatches term))
            currentCategory :=
              (s.questions.filter (questionMatches term)).map (fun q => q.category)
            total_questions := (s.questions.filter (questionMatches term)).length }
        ∧ ((∀ c ∈ term.toList, c ≠ '%' ∧ c ≠ '_') →
            ∀ q : Question, questionMatches term q = true
              ↔ ∃ text, q.question = some text ∧ containsCISpec term text)) := by
  constructor
  · rcases body with ⟨st⟩
    cases st with
    | none => simp [search_question]
    | some t =>
      by_cases ht : t = ""
      · subst ht
        simp [search_question]
      · simp only [search_question, if_neg ht]
        simp [ht]
  · intro term heq hne
    rcases body with ⟨st⟩
    cases heq
    simp only [search_question, if_neg hne]
    exact ⟨by trivial, fun hw q => questionMatches_iff term hw q⟩

/-- Instantiation of `search_question_spec` searching "B" (matching "abc"
case-insensitively) in a one-question store. -/
theorem search_question_spec_witness :
    search_question stateAbc ⟨some "B"⟩ 1 = .ok
      { success := true
        questions := paginate_questions 1
          (stateAbc.questions.filter (questionMatches "B"))
        currentCategory :=
          (stateAbc.questions.filter (questionMatches "B")).map (fun q => q.category)
        total_questions := (stateAbc.questions.filter (questionMatches "B")).length }
    ∧ (questionMatches "B" rowAbc = true
        ↔ ∃ text, rowAbc.question = some text ∧ containsCISpec "B" text) := by
  have h := (search_question_spec stateAbc ⟨some "B"⟩ 1).2 "B" rfl (by decide)
  exact ⟨h.1, h.2 (by decide) rowAbc⟩

/-! ## C10 — search results are paginated -/

theorem resolveIndex_sub_le (len : Nat) (a b : Int) (hab : a ≤ b) :
    resolveIndex len b - resolveIndex len a ≤ (b - a).toNat := by
  unfold resolveIndex
  by_cases ha : a < 0 <;> by_cases hb : b < 0 <;> simp only [ha, hb, if_true, if_false] <;>
    omega

theorem pySlice_length_le {α : Type} (xs : List α) (a b : Int) (hab : a ≤ b) :
    (pySlice xs a b).length ≤ (b - a).toNat := by
  unfold pySlice
  rw [List.length_take, List.length_drop]
  have h := resolveIndex_sub_le xs.length a b hab
  omega

theorem paginate_length_le_ten (page : Int) (selection : List Question) :
    (paginate_questions page selection).length ≤ 10 := by
  simp only [paginate_questions, QUESTIONS_PER_PAGE]
  have h := pySlice_length_le (selection.map Question.format)
    ((page - 1) * 10) ((page - 1) * 10 + 10) (by omega)
  omega

/-- C10: the questions list of a successful search response is the
page-selected slice of the matching questions and so holds at most 10
records, while `total_questions` counts every match. -/
theorem search_question_paginated (s : State) (term : String) (page : Int)
    (hne : term ≠ "") :
    search_question s ⟨some term⟩ page = .ok
      { success := true
        questions := paginate_questions page (s.questions.filter (questionMatches term))
        currentCategory :=
          (s.questions.filter (questionMatches term)).map (fun q => q.category)
        total_questions := (s.questions.filter (questionMatches term)).length }
    ∧ (paginate_questions page (s.questions.filter (questionMatches term))).length ≤ 10 := by
  constructor
  · simp only [search_question, if_neg hne]
  · exact paginate_length_le_ten page (s.questions.filter (questionMatches term))

/-- Instantiation of `search_question_paginated` searching "a" in a
one-question store. -/
theorem search_question_paginated_witness :
    search_question stateAbc ⟨some "a"⟩ 3 = .ok
      { success := true
        questions := paginate_questions 3
          (stateAbc.questions.filter (questionMatches "a"))
        currentCategory :=
          (stateAbc.questions.filter (questionMatches "a")).map (fun q => q.category)
        total_questions := (stateAbc.questions.filter (questionMatches "a")).length }
    ∧ (paginate_questions 3
        (stateAbc.questions.filter (questionMatches "a"))).length ≤ 10 :=
  search_question_paginated stateAbc "a" 3 (by decide)

end Trivia
